import Mathlib

/-!
# Shallow embedding of `src/events/eventproxy.js`

The repository is a single-file publish/subscribe dispatcher (`EventProxy`).
This file embeds its data model and operations in Lean and proves the
specification claims about them.

Modelling decisions, each tied to a place in the source:

* A callback is identified by its reference identity; we model identities as
  `Cb := Nat`.  `removeListener` compares callbacks with `===` (reference
  identity), which becomes equality of identities.
* A slot in an event's list is either an active callback or the `null`
  tombstone written by `removeListener`; we model it as `Option Cb`
  (`none` = tombstone).
* `this._callbacks` is a plain JS object used as a string-keyed map; we model
  it as an association list `List (String × List Slot)` with `lookup`
  (property read, `undefined` ↦ `none`) and `setKey` (property write).
  The unused `this._fired` object set by the constructor is kept as an
  (always empty) field for faithfulness.
* Argument values passed through `trigger` are opaque to the dispatcher
  except that the wildcard pass prepends the event-name string; `Val` is a
  small value universe with a string constructor for that purpose.
* `debug(...)` in `addListener` / `headbind` / `removeListener` is a logging
  hook whose definition is not part of this source file; the spec describes
  no logging behaviour, so it is modelled as an effect-free no-op (it touches
  no dispatcher state in the source either).
* In `trigger`, the source reads `list.splice(i, 1) { i--; l--; }`; the only
  coherent reading (and the one matching the documented lazy-compaction
  behaviour) is the splice statement followed by the block decrementing `i`
  and `l`, i.e. the tombstone is dropped in place and iteration resumes at
  the same position.  That is how the pass is embedded below.
* JS methods return `this` when the source says `return this`, and
  `undefined` when there is no return statement (`bindForAll`,
  `unbindForAll`).  The `...Full` variants expose this: they pair the updated
  state with the JS return value, `some state` for `return this` and `none`
  for `undefined`.
-/

/-- Reference identity of a JS callback function. -/
abbrev Cb := Nat

/-- Values passed through `trigger`: the dispatcher itself only ever
manufactures the string it prepends for the wildcard pass, so the universe
just needs strings plus an opaque payload constructor. -/
inductive Val where
  | vstr (s : String)
  | vnum (n : Nat)
deriving DecidableEq

/-- One slot of an event's callback list: an active callback or the `null`
tombstone left by `removeListener`. -/
abbrev Slot := Option Cb

/-- `var ALL_EVENT = '__all__';` — the reserved wildcard channel name. -/
def ALL_EVENT : String := "__all__"

/-- The dispatcher state: `this._callbacks` (string-keyed map from event name
to callback list, modelled as an association list) and the otherwise unused
`this._fired`. -/
structure EventProxy where
  _callbacks : List (String × List Slot)
  _fired : List String
deriving DecidableEq

/-- Property read on the `_callbacks` object: `calls[ev]`, with `none` for
`undefined` (absent key). -/
def lookup : List (String × List Slot) → String → Option (List Slot)
  | [], _ => none
  | (k', v) :: rest, k => if k' = k then some v else lookup rest k

/-- Property write on the `_callbacks` object: `calls[ev] = v` (replaces the
value if the key exists, otherwise adds the key). -/
def setKey : List (String × List Slot) → String → List Slot → List (String × List Slot)
  | [], k, v => [(k, v)]
  | (k', v') :: rest, k, v =>
      if k' = k then (k, v) :: rest else (k', v') :: setKey rest k v

/-- JS falsiness of the optional `eventname` argument of `removeListener`:
`undefined` (absent) and the empty string are both falsy. -/
def strFalsy : Option String → Bool
  | none => true
  | some s => s.isEmpty

/-- `new EventProxy()`: `this._callbacks = {}; this._fired = {};`. -/
def EventProxy.new : EventProxy := { _callbacks := [], _fired := [] }

/-- `EventProxy()` called as a plain function, without `new`: the guard
`if (!(this instanceof EventProxy)) return new EventProxy();` makes it
return a fresh instance built by the `new` path. -/
def EventProxy.call : EventProxy := EventProxy.new

/-- `EventProxy.prototype.addListener`:
`this._callbacks[ev] = this._callbacks[ev] || []; this._callbacks[ev].push(callback);`
(the `debug` logging call is a no-op on dispatcher state). -/
def addListener (d : EventProxy) (ev : String) (cb : Cb) : EventProxy :=
  { d with _callbacks := setKey d._callbacks ev ((lookup d._callbacks ev).getD [] ++ [some cb]) }

/-- `addListener` together with its JS return value (`return this`). -/
def addListenerFull (d : EventProxy) (ev : String) (cb : Cb) : EventProxy × Option EventProxy :=
  (addListener d ev cb, some (addListener d ev cb))

/-- `EventProxy.prototype.headbind`: like `addListener` but
`this._callbacks[ev].unshift(callback)` — insert at position 0. -/
def headbind (d : EventProxy) (ev : String) (cb : Cb) : EventProxy :=
  { d with _callbacks := setKey d._callbacks ev (some cb :: (lookup d._callbacks ev).getD []) }

/-- `headbind` together with its JS return value (`return this`). -/
def headbindFull (d : EventProxy) (ev : String) (cb : Cb) : EventProxy × Option EventProxy :=
  (headbind d ev cb, some (headbind d ev cb))

/-- `EventProxy.prototype.removeListener`.  The branch is selected by JS
falsiness of the arguments:
* `!eventname` (absent or `""`): `this._callbacks = {}` — full reset;
* `!callback` (absent): `calls[eventname] = []` — the key is set to a fresh
  empty list (created if it did not exist);
* both given: every slot `list[i]` with `callback === list[i]` is set to
  `null` in place; an unknown event (`calls[eventname]` undefined) is left
  alone by the `if (list)` guard. -/
def removeListener (d : EventProxy) (eventname : Option String) (callback : Option Cb) :
    EventProxy :=
  if strFalsy eventname then { d with _callbacks := [] }
  else
    let e := eventname.getD ""
    match callback with
    | none => { d with _callbacks := setKey d._callbacks e [] }
    | some cb =>
        match lookup d._callbacks e with
        | none => d
        | some list =>
            { d with _callbacks :=
                setKey d._callbacks e (list.map fun s => if s = some cb then none else s) }

/-- `removeListener` together with its JS return value (`return this`). -/
def removeListenerFull (d : EventProxy) (eventname : Option String) (callback : Option Cb) :
    EventProxy × Option EventProxy :=
  (removeListener d eventname callback, some (removeListener d eventname callback))

/-- `EventProxy.prototype.removeAllListeners = function (event) { return this.unbind(event); }`. -/
def removeAllListeners (d : EventProxy) (event : Option String) : EventProxy :=
  removeListener d event none

/-- `EventProxy.prototype.bindForAll = function (callback) { this.bind(ALL_EVENT, callback); }`. -/
def bindForAll (d : EventProxy) (cb : Cb) : EventProxy :=
  addListener d ALL_EVENT cb

/-- `bindForAll` with its JS return value: the body has no return statement,
so the call evaluates to `undefined` (`none`), not `this`. -/
def bindForAllFull (d : EventProxy) (cb : Cb) : EventProxy × Option EventProxy :=
  (bindForAll d cb, none)

/-- `EventProxy.prototype.unbindForAll = function (callback) { this.unbind(ALL_EVENT, callback); }`. -/
def unbindForAll (d : EventProxy) (cb : Cb) : EventProxy :=
  removeListener d (some ALL_EVENT) (some cb)

/-- `unbindForAll` with its JS return value: no return statement, so
`undefined` (`none`). -/
def unbindForAllFull (d : EventProxy) (cb : Cb) : EventProxy × Option EventProxy :=
  (unbindForAll d cb, none)

/-- One pass of the `for (i = 0, l = list.length; i < l; i++)` loop inside
`trigger`, for a fixed argument vector, when no callback re-enters the
dispatcher: a `null` slot is spliced out in place (`splice(i, 1)` with `i--`
and `l--`, i.e. the element is dropped and the scan resumes at the same
position), an active slot is invoked with `args`.  Returns the invocation
trace of the pass and the compacted list left in the array. -/
def triggerPass (args : List Val) : List Slot → List (Cb × List Val) × List Slot
  | [] => ([], [])
  | none :: rest => triggerPass args rest
  | some cb :: rest =>
      let p := triggerPass args rest
      ((cb, args) :: p.1, some cb :: p.2)

/-- One iteration of the `while (both--)` loop of `trigger`: read
`calls[ev]`; if the property is set, run the pass over it (which also writes
the compacted list back, since the array is mutated in place). -/
def triggerOne (d : EventProxy) (ev : String) (args : List Val) :
    EventProxy × List (Cb × List Val) :=
  match lookup d._callbacks ev with
  | none => (d, [])
  | some list =>
      let p := triggerPass args list
      ({ d with _callbacks := setKey d._callbacks ev p.2 }, p.1)

/-- `EventProxy.prototype.trigger`: first pass over `calls[eventname]` with
`start = 1` (arguments after the event name), then a pass over
`calls[ALL_EVENT]` with `start = 0` (the event name prepended).  Returns the
updated state and the concatenated invocation trace. -/
def trigger (d : EventProxy) (eventname : String) (args : List Val) :
    EventProxy × List (Cb × List Val) :=
  let p1 := triggerOne d eventname args
  let p2 := triggerOne p1.1 ALL_EVENT (Val.vstr eventname :: args)
  (p2.1, p1.2 ++ p2.2)

/-- `EventProxy.prototype.fire = EventProxy.prototype.trigger`. -/
def fire (d : EventProxy) (eventname : String) (args : List Val) :
    EventProxy × List (Cb × List Val) :=
  trigger d eventname args

/-- `EventProxy.prototype.emit = EventProxy.prototype.trigger`. -/
def emit (d : EventProxy) (eventname : String) (args : List Val) :
    EventProxy × List (Cb × List Val) :=
  trigger d eventname args

/-- The slot list currently stored for event `ev` (empty when the key is
absent). -/
def slotsOf (d : EventProxy) (ev : String) : List Slot :=
  (lookup d._callbacks ev).getD []

/-- The active (non-tombstoned) callbacks registered for event `ev`, in list
order. -/
def activeCbs (d : EventProxy) (ev : String) : List Cb :=
  (slotsOf d ev).filterMap id

/-- The invocation sequence of one `trigger` pass over an event's list when
invoked callbacks may re-enter the dispatcher through
`removeListener(eventname, cb)` calls on the event being fired.  Such a call
nulls matching slots of the very array the loop is scanning, so the loop
sees them.  `removed` accumulates the identities tombstoned so far; a slot
whose identity is in `removed` has already been set to `null` in place, and
the loop splices over it without invoking it.  `eff c` lists the identities
that callback `c` unregisters (for this event) during its own invocation. -/
def reentrantTrace (eff : Cb → List Cb) : List Cb → List Slot → List Cb
  | _, [] => []
  | removed, none :: rest => reentrantTrace eff removed rest
  | removed, some c :: rest =>
      if c ∈ removed then reentrantTrace eff removed rest
      else c :: reentrantTrace eff (removed ++ eff c) rest

/-- Concrete reentrant behaviour used as a witness scenario: callback 1
unregisters callback 2 from the event being fired, during its own
invocation. -/
def effW : Cb → List Cb := fun c => if c = 1 then [2] else []

example : addListener EventProxy.new "x" 7 =
    { _callbacks := [("x", [some 7])], _fired := [] } := by decide

example : (trigger (addListener (addListener EventProxy.new "x" 1) "x" 2) "x" [Val.vnum 9]).2 =
    [(1, [Val.vnum 9]), (2, [Val.vnum 9])] := by decide

example : reentrantTrace (fun c => if c = 1 then [2] else []) []
    [some 1, some 2, some 3] = [1, 3] := by decide

/-! ## Map and pass lemmas -/

theorem lookup_setKey_self (m : List (String × List Slot)) (k : String) (v : List Slot) :
    lookup (setKey m k v) k = some v := by
  induction m with
  | nil => simp [setKey, lookup]
  | cons hd tl ih =>
      obtain ⟨k', v'⟩ := hd
      by_cases h : k' = k
      · simp [setKey, lookup, h]
      · simp [setKey, lookup, h, ih]

theorem lookup_setKey_ne (m : List (String × List Slot)) (k : String) (v : List Slot)
    (k' : String) (h : k' ≠ k) : lookup (setKey m k v) k' = lookup m k' := by
  induction m with
  | nil =>
      simp only [setKey, lookup]
      rw [if_neg fun hh => h hh.symm]
  | cons hd tl ih =>
      obtain ⟨k₀, v₀⟩ := hd
      by_cases h0 : k₀ = k
      · subst h0
        have hne : ¬ k₀ = k' := fun hh => h hh.symm
        simp [setKey, lookup, hne]
      · simp [setKey, lookup, h0, ih]

theorem triggerPass_fst (args : List Val) (l : List Slot) :
    (triggerPass args l).1 = (l.filterMap id).map fun c => (c, args) := by
  induction l with
  | nil => simp [triggerPass]
  | cons hd tl ih =>
      cases hd with
      | none => simpa [triggerPass] using ih
      | some c => simp [triggerPass, ih]

theorem triggerPass_snd (args : List Val) (l : List Slot) :
    (triggerPass args l).2 = l.filter fun s => s.isSome := by
  induction l with
  | nil => simp [triggerPass]
  | cons hd tl ih =>
      cases hd with
      | none => simpa [triggerPass] using ih
      | some c => simp [triggerPass, ih]

theorem filterMap_id_filter_isSome (l : List Slot) :
    ((l.filter fun s => s.isSome).filterMap id) = l.filterMap id := by
  induction l with
  | nil => simp
  | cons hd tl ih =>
      cases hd with
      | none => simp [ih]
      | some c => simp [ih]

theorem filter_isSome_idem (l : List Slot) :
    ((l.filter fun s => s.isSome).filter fun s => s.isSome) = l.filter fun s => s.isSome := by
  induction l with
  | nil => simp
  | cons hd tl ih =>
      cases hd with
      | none => simp [ih]
      | some c => simp [ih]

theorem triggerOne_trace (d : EventProxy) (ev : String) (args : List Val) :
    (triggerOne d ev args).2 = (activeCbs d ev).map fun c => (c, args) := by
  unfold triggerOne
  cases h : lookup d._callbacks ev with
  | none => simp [activeCbs, slotsOf, h]
  | some l => simp [activeCbs, slotsOf, h, triggerPass_fst]

theorem triggerOne_slots (d : EventProxy) (ev : String) (args : List Val) :
    slotsOf (triggerOne d ev args).1 ev = (slotsOf d ev).filter fun s => s.isSome := by
  unfold triggerOne
  cases h : lookup d._callbacks ev with
  | none => simp [slotsOf, h]
  | some l => simp [slotsOf, h, lookup_setKey_self, triggerPass_snd]

theorem triggerOne_lookup_ne (d : EventProxy) (ev : String) (args : List Val)
    (ev' : String) (h : ev' ≠ ev) :
    lookup (triggerOne d ev args).1._callbacks ev' = lookup d._callbacks ev' := by
  unfold triggerOne
  cases hl : lookup d._callbacks ev with
  | none => rfl
  | some l => simp [lookup_setKey_ne _ _ _ _ h]

theorem triggerOne_slots_ne (d : EventProxy) (ev : String) (args : List Val)
    (ev' : String) (h : ev' ≠ ev) :
    slotsOf (triggerOne d ev args).1 ev' = slotsOf d ev' := by
  simp [slotsOf, triggerOne_lookup_ne d ev args ev' h]

theorem triggerOne_active (d : EventProxy) (ev : String) (args : List Val) (ev' : String) :
    activeCbs (triggerOne d ev args).1 ev' = activeCbs d ev' := by
  by_cases h : ev' = ev
  · subst h
    simp [activeCbs, triggerOne_slots, filterMap_id_filter_isSome]
  · simp [activeCbs, triggerOne_slots_ne d ev args ev' h]

/-- The full invocation trace of `trigger`: the active callbacks under the
fired event, each with `args`, then the active callbacks under the wildcard
channel, each with the event name prepended. -/
theorem trigger_trace_eq (d : EventProxy) (e : String) (args : List Val) :
    (trigger d e args).2
      = ((activeCbs d e).map fun c => (c, args))
        ++ ((activeCbs d ALL_EVENT).map fun c => (c, Val.vstr e :: args)) := by
  unfold trigger
  simp [triggerOne_trace, triggerOne_active]

theorem trigger_slots_direct (d : EventProxy) (e : String) (args : List Val) :
    slotsOf (trigger d e args).1 e = (slotsOf d e).filter fun s => s.isSome := by
  unfold trigger
  by_cases h : e = ALL_EVENT
  · subst h
    simp [triggerOne_slots, filter_isSome_idem]
  · rw [triggerOne_slots_ne _ _ _ _ h, triggerOne_slots]

theorem trigger_slots_all (d : EventProxy) (e : String) (args : List Val) :
    slotsOf (trigger d e args).1 ALL_EVENT
      = (slotsOf d ALL_EVENT).filter fun s => s.isSome := by
  unfold trigger
  rw [triggerOne_slots]
  by_cases h : e = ALL_EVENT
  · subst h
    simp [triggerOne_slots, filter_isSome_idem]
  · rw [triggerOne_slots_ne _ _ _ _ (fun hh => h hh.symm) ]

/-! ## Registration lemmas -/

theorem addListener_active (d : EventProxy) (e : String) (cb : Cb) :
    activeCbs (addListener d e cb) e = activeCbs d e ++ [cb] := by
  simp [activeCbs, slotsOf, addListener, lookup_setKey_self]

theorem headbind_active (d : EventProxy) (e : String) (cb : Cb) :
    activeCbs (headbind d e cb) e = cb :: activeCbs d e := by
  simp [activeCbs, slotsOf, headbind, lookup_setKey_self]

theorem strFalsy_of_ne (e : String) (he : e ≠ "") : strFalsy (some e) = false := by
  simp only [strFalsy]
  cases h : e.isEmpty
  · rfl
  · exact absurd ((String.isEmpty_iff e).mp h) he

/-! ## Reentrant-pass lemmas -/

theorem reentrantTrace_sublist (eff : Cb → List Cb) :
    ∀ (l : List Slot) (removed : List Cb),
      (reentrantTrace eff removed l).Sublist (l.filterMap id) := by
  intro l
  induction l with
  | nil => intro removed; simp [reentrantTrace]
  | cons hd tl ih =>
      intro removed
      cases hd with
      | none =>
          simp only [reentrantTrace, List.filterMap_cons]
          exact ih removed
      | some c =>
          simp only [reentrantTrace, List.filterMap_cons]
          by_cases hc : c ∈ removed
          · rw [if_pos hc]
            exact (ih removed).cons c
          · rw [if_neg hc]
            exact (ih (removed ++ eff c)).cons₂ c

theorem reentrantTrace_mem (eff : Cb → List Cb) :
    ∀ (l : List Slot) (removed : List Cb) (c : Cb),
      c ∈ l.filterMap id → c ∉ removed →
      (∀ c' ∈ reentrantTrace eff removed l, c ∉ eff c') →
      c ∈ reentrantTrace eff removed l := by
  intro l
  induction l with
  | nil => intro removed c hc _ _; simp at hc
  | cons hd tl ih =>
      intro removed c hc hr hnr
      cases hd with
      | none =>
          simp only [List.filterMap_cons] at hc
          simp only [reentrantTrace] at hnr ⊢
          exact ih removed c hc hr hnr
      | some c₀ =>
          simp only [List.filterMap_cons, id] at hc
          rcases List.mem_cons.mp hc with hceq | hctl
          · subst hceq
            by_cases h0 : c ∈ removed
            · exact absurd h0 hr
            · simp only [reentrantTrace, if_neg h0]
              exact List.mem_cons_self c _
          · by_cases h0 : c₀ ∈ removed
            · simp only [reentrantTrace, if_pos h0] at hnr ⊢
              exact ih removed c hctl hr hnr
            · simp only [reentrantTrace, if_neg h0] at hnr ⊢
              have hnc0 : c ∉ eff c₀ := hnr c₀ (List.mem_cons_self c₀ _)
              have hr' : c ∉ removed ++ eff c₀ := by
                intro hmem
                rcases List.mem_append.mp hmem with hm | hm
                · exact hr hm
                · exact hnc0 hm
              have hnr' : ∀ c' ∈ reentrantTrace eff (removed ++ eff c₀) tl, c ∉ eff c' :=
                fun c' hc' => hnr c' (List.mem_cons_of_mem c₀ hc')
              exact List.mem_cons_of_mem c₀ (ih (removed ++ eff c₀) c hctl hr' hnr')

theorem filter_all_isSome (l : List Slot) :
    ((l.filter fun s => s.isSome).all fun s => s.isSome) = true := by
  simp only [List.all_eq_true]
  intro s hs
  exact List.of_mem_filter hs

/-! ## Claims -/

/-- C1: `fire(eventName, ...args)` invokes every non-tombstoned callback
registered directly under `eventName` with exactly `args`, in list order,
and afterwards every non-tombstoned callback registered under the wildcard
channel with `eventName` prepended to `args`, in list order; all
direct-channel invocations precede all wildcard-channel invocations. -/
theorem trigger_order (d : EventProxy) (e : String) (args : List Val) :
    (trigger d e args).2
      = ((activeCbs d e).map fun c => (c, args))
        ++ ((activeCbs d ALL_EVENT).map fun c => (c, Val.vstr e :: args)) :=
  trigger_trace_eq d e args

/-- C2: `register(e, cb)` (`addListener`) appends `cb` to the end of `e`'s
list, creating the list if absent, returns the dispatcher itself (`return
this`), and — being a total function — raises no error; registering the same
callback twice yields two trailing registrations and hence at least two
invocations of `(cb, args)` on the next fire. -/
theorem addListener_appends (d : EventProxy) (e : String) (cb : Cb) (args : List Val) :
    lookup (addListener d e cb)._callbacks e
      = some ((lookup d._callbacks e).getD [] ++ [some cb])
    ∧ (addListenerFull d e cb).2 = some (addListener d e cb)
    ∧ activeCbs (addListener (addListener d e cb) e cb) e = activeCbs d e ++ [cb, cb]
    ∧ 2 ≤ (trigger (addListener (addListener d e cb) e cb) e args).2.count (cb, args) := by
  refine ⟨?_, rfl, ?_, ?_⟩
  · simp [addListener, lookup_setKey_self]
  · rw [addListener_active, addListener_active]
    simp
  · rw [trigger_trace_eq, addListener_active, addListener_active]
    simp only [List.append_assoc, List.map_append, List.count_append, List.map_cons,
      List.map_nil, List.cons_append, List.nil_append]
    simp [List.count_cons]
    omega

/-- C3 (amended: for a non-empty, i.e. truthy, event name — the empty string
falls into the full-reset branch, see the counterexample and C9):
`unregister()` clears the whole mapping; `unregister(e)` sets `e`'s list to a
zero-length list without removing the key and leaves other keys alone;
`unregister(e, cb)` tombstones exactly the slots holding `cb`, in place,
leaving other slots and other keys unchanged; each form returns the
dispatcher (`return this`). -/
theorem removeListener_three_way (d : EventProxy) (e : String) (cb : Cb) (he : e ≠ "") :
    removeListener d none none = { d with _callbacks := [] }
    ∧ lookup (removeListener d (some e) none)._callbacks e = some []
    ∧ (∀ e', e' ≠ e → lookup (removeListener d (some e) none)._callbacks e'
        = lookup d._callbacks e')
    ∧ lookup (removeListener d (some e) (some cb))._callbacks e
        = (lookup d._callbacks e).map (List.map fun s => if s = some cb then none else s)
    ∧ (∀ e', e' ≠ e → lookup (removeListener d (some e) (some cb))._callbacks e'
        = lookup d._callbacks e')
    ∧ (removeListenerFull d none none).2 = some (removeListener d none none)
    ∧ (removeListenerFull d (some e) none).2 = some (removeListener d (some e) none)
    ∧ (removeListenerFull d (some e) (some cb)).2 = some (removeListener d (some e) (some cb)) := by
  have hf : strFalsy (some e) = false := strFalsy_of_ne e he
  refine ⟨?_, ?_, ?_, ?_, ?_, rfl, rfl, rfl⟩
  · simp [removeListener, strFalsy]
  · simp [removeListener, hf, lookup_setKey_self]
  · intro e' hne
    simp [removeListener, hf, lookup_setKey_ne _ _ _ _ hne]
  · cases hl : lookup d._callbacks e with
    | none => simp [removeListener, hf, hl]
    | some l => simp [removeListener, hf, hl, lookup_setKey_self]
  · intro e' hne
    cases hl : lookup d._callbacks e with
    | none => simp [removeListener, hf, hl]
    | some l => simp [removeListener, hf, hl, lookup_setKey_ne _ _ _ _ hne]

/-- Witness for C3: on the list `[cb1, cb2, cb1]` under `"x"`, removing `cb1`
tombstones both matching slots in place, leaving `[null, cb2, null]`. -/
theorem removeListener_three_way_witness :
    lookup (removeListener { _callbacks := [("x", [some 1, some 2, some 1])], _fired := [] }
      (some "x") (some 1))._callbacks "x" = some [none, some 2, none] := by
  rw [(removeListener_three_way
    { _callbacks := [("x", [some 1, some 2, some 1])], _fired := [] } "x" 1
    (by decide)).2.2.2.1]
  decide

/-- Counterexample for C3 as stated: with the empty string as event name,
`unregister("")` does not empty that event's list while keeping the key — it
takes the falsy full-reset branch and the key disappears entirely. -/
theorem removeListener_empty_name_cex :
    lookup (removeListener { _callbacks := [("", [some 1])], _fired := [] }
      (some "") none)._callbacks "" ≠ some [] := by decide

/-- C4: a completed, non-reentrant `fire` pass physically drops every
tombstone it passes over: both traversed lists end up equal to their
tombstone-free compaction (order of the active slots preserved, so no active
callback is dropped), contain no tombstones, and the invocation trace has
exactly one entry per active callback (tombstones are never invoked). -/
theorem trigger_compacts (d : EventProxy) (e : String) (args : List Val) :
    slotsOf (trigger d e args).1 e = (slotsOf d e).filter (fun s => s.isSome)
    ∧ slotsOf (trigger d e args).1 ALL_EVENT
        = (slotsOf d ALL_EVENT).filter (fun s => s.isSome)
    ∧ ((slotsOf (trigger d e args).1 e).all fun s => s.isSome) = true
    ∧ ((slotsOf (trigger d e args).1 ALL_EVENT).all fun s => s.isSome) = true
    ∧ (trigger d e args).2.length = (activeCbs d e).length + (activeCbs d ALL_EVENT).length := by
  refine ⟨trigger_slots_direct d e args, trigger_slots_all d e args, ?_, ?_, ?_⟩
  · rw [trigger_slots_direct]
    exact filter_all_isSome _
  · rw [trigger_slots_all]
    exact filter_all_isSome _
  · rw [trigger_trace_eq]
    simp

/-- C5: during a `fire(e, ...)` pass in which invoked callbacks may re-enter
the dispatcher with `unregister(e, cb)` calls (modelled by `eff`, the set of
identities each callback tombstones in the shared array during its own
invocation), every callback that was registered for the pass and is never
unregistered by an invoked callback is invoked exactly once — none skipped,
none doubled — and no callback is invoked twice at all. -/
theorem reentrant_removal_exactly_once (eff : Cb → List Cb) (l : List Slot) (c : Cb)
    (hnd : (l.filterMap id).Nodup) (hc : c ∈ l.filterMap id)
    (hnr : ∀ c' ∈ reentrantTrace eff [] l, c ∉ eff c') :
    (reentrantTrace eff [] l).Nodup ∧ (reentrantTrace eff [] l).count c = 1 := by
  have hnd' : (reentrantTrace eff [] l).Nodup := hnd.sublist (reentrantTrace_sublist eff l [])
  have hmem : c ∈ reentrantTrace eff [] l :=
    reentrantTrace_mem eff l [] c hc (by simp) hnr
  exact ⟨hnd', List.count_eq_one_of_mem hnd' hmem⟩

/-- Witness for C5: with callbacks `[1, 2, 3]` registered and callback 1
removing callback 2 mid-pass, callback 3 is still invoked exactly once. -/
theorem reentrant_removal_exactly_once_witness :
    (reentrantTrace effW [] [some 1, some 2, some 3]).count 3 = 1 :=
  (reentrant_removal_exactly_once effW [some 1, some 2, some 3] 3 (by decide) (by decide)
    (by decide)).2

/-- C6: `registerAtHead(e, cb)` (`headbind`) inserts `cb` at position 0
(creating the list if absent), so `cb` is invoked first on the next
`fire(e, ...)`; a later head-insertion lands in front of it; and it returns
the dispatcher (`return this`). -/
theorem headbind_prepends (d : EventProxy) (e : String) (cb cb' : Cb) (args : List Val) :
    lookup (headbind d e cb)._callbacks e
      = some (some cb :: (lookup d._callbacks e).getD [])
    ∧ ((trigger (headbind d e cb) e args).2).head? = some (cb, args)
    ∧ lookup (headbind (headbind d e cb) e cb')._callbacks e
        = some (some cb' :: some cb :: (lookup d._callbacks e).getD [])
    ∧ (headbindFull d e cb).2 = some (headbind d e cb) := by
  refine ⟨?_, ?_, ?_, rfl⟩
  · simp [headbind, lookup_setKey_self]
  · rw [trigger_trace_eq, headbind_active]
    simp
  · simp [headbind, lookup_setKey_self]

/-- C7 (amended: `unregister(e, cb)` on an unknown event leaves the state
unchanged, but `unregister(e)` with the callback omitted creates the key
with a fresh empty list — observably a different mapping, though no callback
behaviour changes): firing an unknown event raises no error and invokes only
wildcard subscribers (zero direct callbacks). -/
theorem unknown_event_noop (d : EventProxy) (e : String) (args : List Val) (cb : Cb)
    (h : lookup d._callbacks e = none) (he : e ≠ "") :
    (trigger d e args).2 = (activeCbs d ALL_EVENT).map (fun c => (c, Val.vstr e :: args))
    ∧ removeListener d (some e) (some cb) = d
    ∧ lookup (removeListener d (some e) none)._callbacks e = some [] := by
  have hf : strFalsy (some e) = false := strFalsy_of_ne e he
  refine ⟨?_, ?_, ?_⟩
  · rw [trigger_trace_eq]
    simp [activeCbs, slotsOf, h]
  · simp [removeListener, hf, h]
  · simp [removeListener, hf, lookup_setKey_self]

/-- Witness for C7: on a fresh dispatcher, `unregister("x")` ends with the
key `"x"` bound to the empty list. -/
theorem unknown_event_noop_witness :
    lookup (removeListener EventProxy.new (some "x") none)._callbacks "x" = some [] :=
  (unknown_event_noop EventProxy.new "x" [] 0 rfl (by decide)).2.2

/-- Counterexample for C7 as stated: `unregister("x")` on a dispatcher that
never saw `"x"` does not leave the state unchanged — it creates the key
`"x"` bound to an empty list. -/
theorem unknown_event_unregister_cex :
    removeListener EventProxy.new (some "x") none ≠ EventProxy.new := by decide

/-- C8 (amended: the wrappers produce the same dispatcher state as
`register`/`unregister` on the wildcard name, but not the same result value —
their bodies have no return statement, so they evaluate to `undefined` while
`register`/`unregister` return the dispatcher). -/
theorem forAll_wrappers_state (d : EventProxy) (cb : Cb) :
    (bindForAllFull d cb).1 = (addListenerFull d ALL_EVENT cb).1
    ∧ (unbindForAllFull d cb).1 = (removeListenerFull d (some ALL_EVENT) (some cb)).1
    ∧ (bindForAllFull d cb).2 = none
    ∧ (unbindForAllFull d cb).2 = none :=
  ⟨rfl, rfl, rfl, rfl⟩

/-- Counterexample for C8 as stated: `bindForAll` does not produce the same
result value as `register` on the wildcard name — `undefined` (`none`)
versus the dispatcher itself. -/
theorem forAll_wrappers_cex :
    (bindForAllFull EventProxy.new 0).2 ≠ (addListenerFull EventProxy.new ALL_EVENT 0).2 := by
  decide

/-- C9: `unregister`'s branch is selected by falsiness, not argument
presence: an empty-string event name takes the full-reset branch (the whole
mapping is cleared), with or without a callback, exactly like omitting both
arguments. -/
theorem removeListener_falsy_reset (d : EventProxy) (cb : Cb) :
    removeListener d (some "") none = { d with _callbacks := [] }
    ∧ removeListener d (some "") (some cb) = { d with _callbacks := [] }
    ∧ removeListener d none none = { d with _callbacks := [] } := by
  have h0 : strFalsy (some "") = true := by decide
  refine ⟨?_, ?_, ?_⟩
  · simp [removeListener, h0]
  · simp [removeListener, h0]
  · simp [removeListener, strFalsy]

/-- C10: calling the constructor as a plain function returns a dispatcher
identical to one built with `new`, and both start with an empty registration
mapping. -/
theorem ctor_without_new :
    EventProxy.call = EventProxy.new
    ∧ EventProxy.new._callbacks = []
    ∧ EventProxy.call._callbacks = [] :=
  ⟨rfl, rfl, rfl⟩
